import Mathlib

/-!
Verification of the finance-buddy backend (main.py).

The embedding mirrors the Python source:
  - `Transaction` mirrors the pydantic `Transaction` model; a calendar date is
    represented by its day ordinal as an `Int` (only differences in whole days
    are ever used), and monetary amounts by `Rat` (the source uses floats; the
    spec declares summation order sensitivity acceptable, so exact rationals
    are the faithful shallow embedding).
  - `calculate_analytics` mirrors the helper of the same name.
  - `get_summary` mirrors the `/summary` endpoint, including the FastAPI
    `Query(..., gt=0)` validation that rejects a non-positive income before the
    handler body runs, and the 404 branch for an empty snapshot.
  - `get_savings_tips` mirrors the `/tips` endpoint tips computation. Each
    appended `Tip(title=..., suggestion=..., emoji=...)` literal is represented
    by one constructor of the `Tip` inductive carrying the number interpolated
    into its suggestion string, if any; the fixed literal text adds nothing to
    the computation. The random `daily_dopamine_boost` choice is independent of
    the tips list and is not modelled.
  - `get_all_transactions` mirrors the `/transactions` endpoint.
-/

namespace Mochi

/-- Mirrors the pydantic `Transaction` model of main.py: a date (day ordinal),
free-text description, amount, a type discriminator string, a category string
and a payment method string. -/
structure Transaction where
  date : Int
  description : String
  amount : Rat
  type : String
  category : String
  payment_method : String
deriving DecidableEq, Repr

/-- Mirrors `spend_by_category[t.category] += t.amount` on a
`defaultdict(float)`: add `a` to the entry of key `c`, appending a fresh entry
at the end when the key is absent (matching dict insertion order). -/
def addToCategory : List (String × Rat) → String → Rat → List (String × Rat)
  | [], c, a => [(c, a)]
  | (k, v) :: rest, c, a =>
      if k = c then (k, v + a) :: rest
      else (k, v) :: addToCategory rest c a

/-- The `spend_by_category` dict built by `calculate_analytics`: fold over the
transactions, accumulating debit amounts per category. -/
def spendByCategory (transactions : List Transaction) : List (String × Rat) :=
  transactions.foldl
    (fun m t => if t.type = "debit" then addToCategory m t.category t.amount else m) []

/-- Python dict lookup on the association-list model. -/
def categoryLookup : List (String × Rat) → String → Option Rat
  | [], _ => none
  | (k, v) :: rest, c => if k = c then some v else categoryLookup rest c

/-- Timestamp of `first_date = min(t.date for t in transactions)` on a
non-empty list `t0 :: rest`. -/
def minDate (t0 : Transaction) (rest : List Transaction) : Int :=
  (rest.map (·.date)).foldl min t0.date

/-- Timestamp of `last_date = max(t.date for t in transactions)` on a
non-empty list `t0 :: rest`. -/
def maxDate (t0 : Transaction) (rest : List Transaction) : Int :=
  (rest.map (·.date)).foldl max t0.date

/-- The tuple returned by `calculate_analytics`. -/
structure Analytics where
  total_spend : Rat
  total_income : Rat
  spend_by_category : List (String × Rat)
  period_days : Int
deriving DecidableEq, Repr

/-- Mirrors `calculate_analytics(transactions)` of main.py: the empty list
yields `0, 0, {}, 0`; otherwise the debit total, credit total, per-category
debit totals, and the inclusive day span `(last_date - first_date).days + 1`. -/
def calculate_analytics (transactions : List Transaction) : Analytics :=
  match transactions with
  | [] => ⟨0, 0, [], 0⟩
  | t0 :: rest =>
      { total_spend :=
          ((transactions.filter fun t => decide (t.type = "debit")).map (·.amount)).sum
        total_income :=
          ((transactions.filter fun t => decide (t.type = "credit")).map (·.amount)).sum
        spend_by_category := spendByCategory transactions
        period_days := maxDate t0 rest - minDate t0 rest + 1 }

/-- Rounding of a rational to the nearest integer, ties to even: the rounding
Python applies to floats in `round(x, 2)`. -/
def roundHalfEven (x : Rat) : Int :=
  if x - ⌊x⌋ < 1/2 then ⌊x⌋
  else if 1/2 < x - ⌊x⌋ then ⌊x⌋ + 1
  else if ⌊x⌋ % 2 = 0 then ⌊x⌋ else ⌊x⌋ + 1

/-- Python `round(x, 2)`. -/
def round2 (x : Rat) : Rat := (roundHalfEven (x * 100) : Rat) / 100

/-- Python `int(x)`: truncation toward zero. -/
def ratTrunc (x : Rat) : Int := if 0 ≤ x then ⌊x⌋ else ⌈x⌉

/-- The `SummaryResponse` model of main.py. -/
structure SummaryResponse where
  mascot_name : String := "Mochi the Fox"
  total_spend : Rat
  total_income : Rat
  net_flow : Rat
  spend_by_category : List (String × Rat)
  monthly_burn_rate_projection : Rat
  money_left_from_income : Rat
  days_until_broke_projection : Option Int
  period_days : Int
deriving DecidableEq, Repr

/-- The two client-visible failure conditions of the read endpoints:
`invalidInput` is the 422 produced by FastAPI for `Query(..., gt=0)` when the
income is not strictly positive, `noData` is the 404 raised on an empty
snapshot. -/
inductive ApiError where
  | invalidInput
  | noData
deriving DecidableEq, Repr

/-- `daily_spend_rate = total_spend / period_days if period_days > 0 else 0`
from `get_summary`. -/
def daily_spend_rate_of (total_spend : Rat) (period_days : Int) : Rat :=
  if 0 < period_days then total_spend / (period_days : Rat) else 0

/-- Mirrors the `/summary` endpoint. The FastAPI query validation
`monthly_income: float = Query(..., gt=0)` rejects a non-positive income with
a 422 before the handler body runs, so it precedes the empty-snapshot 404. -/
def get_summary (transactions : List Transaction) (monthly_income : Rat) :
    Except ApiError SummaryResponse :=
  if monthly_income ≤ 0 then .error .invalidInput
  else if transactions = [] then .error .noData
  else
    let a := calculate_analytics transactions
    let daily_spend_rate := daily_spend_rate_of a.total_spend a.period_days
    let monthly_burn_rate := daily_spend_rate * 30
    let money_left := monthly_income - a.total_spend
    let days_left : Option Int :=
      if 0 < daily_spend_rate then
        some (if 0 < money_left then ratTrunc (money_left / daily_spend_rate) else 0)
      else none
    .ok {
      total_spend := round2 a.total_spend
      total_income := round2 a.total_income
      net_flow := round2 (a.total_income - a.total_spend)
      spend_by_category := a.spend_by_category.map fun kv => (kv.1, round2 kv.2)
      monthly_burn_rate_projection := round2 monthly_burn_rate
      money_left_from_income := round2 money_left
      days_until_broke_projection := days_left
      period_days := a.period_days }

/-- One entry appended to the `tips` list in `get_savings_tips`. Each
constructor stands for one `Tip(title=..., suggestion=..., emoji=...)` literal
of the source, carrying the number interpolated into its suggestion text when
there is one (`top_amount` for the Food Delivery tip, `monthly_saving` for the
Sutta tip); the remaining tips are fixed text. -/
inductive Tip where
  | foodDelivery (top_amount : Rat)
  | shopping
  | goingOut
  | sutta (monthly_saving : Rat)
  | coffee
  | subscriptions
deriving DecidableEq, Repr

/-- Stable insertion of an entry into a list sorted by descending value: the
entry goes before the first strictly smaller value, after equal ones that were
already present. -/
def insertDesc (x : String × Rat) : List (String × Rat) → List (String × Rat)
  | [] => [x]
  | y :: ys => if x.2 < y.2 then y :: insertDesc x ys else x :: y :: ys

/-- Mirrors `sorted(spend_by_category.items(), key=lambda item: item[1],
reverse=True)`: a stable sort by descending spend. -/
def sortBySpendDesc (l : List (String × Rat)) : List (String × Rat) :=
  l.foldr insertDesc []

/-- Step 1 of the tip ladder: the tip for the top spending category, emitted
only when that category is Food Delivery, Shopping or Going Out. -/
def topCategoryTips (spend_by_category : List (String × Rat)) : List Tip :=
  match sortBySpendDesc spend_by_category with
  | [] => []
  | (top_category, top_amount) :: _ =>
      if top_category = "Food Delivery" then [Tip.foodDelivery top_amount]
      else if top_category = "Shopping" then [Tip.shopping]
      else if top_category = "Going Out" then [Tip.goingOut]
      else []

/-- The Sutta tip: present whenever the category "Sutta" is in the mapping,
with `monthly_saving = (amount / len(transactions) * 0.75) * 30`. -/
def suttaTips (spend_by_category : List (String × Rat)) (n : Nat) : List Tip :=
  match categoryLookup spend_by_category "Sutta" with
  | some amount => [Tip.sutta ((amount / (n : Rat) * 0.75) * 30)]
  | none => []

/-- The Coffee tip: present whenever the category "Coffee" is in the mapping
with total spend above 200. -/
def coffeeTips (spend_by_category : List (String × Rat)) : List Tip :=
  match categoryLookup spend_by_category "Coffee" with
  | some amount => if 200 < amount then [Tip.coffee] else []
  | none => []

/-- The category-specific tips of steps 1 to 3, in the order the source
appends them. -/
def category_specific_tips (transactions : List Transaction) : List Tip :=
  let sbc := (calculate_analytics transactions).spend_by_category
  topCategoryTips sbc ++ suttaTips sbc transactions.length ++ coffeeTips sbc

/-- The full `tips` list built by `get_savings_tips` before truncation: the
category-specific tips followed by the unconditional generic subscriptions
tip. -/
def generated_tips (transactions : List Transaction) : List Tip :=
  category_specific_tips transactions ++ [Tip.subscriptions]

/-- Mirrors the `/tips` endpoint: 404 on an empty snapshot, otherwise the
generated tips truncated to the first 3 (`tips[:3]`). The random encouragement
string of the response is chosen independently of this list and is not
modelled. -/
def get_savings_tips (transactions : List Transaction) : Except ApiError (List Tip) :=
  if transactions = [] then .error .noData
  else .ok ((generated_tips transactions).take 3)

/-- Mirrors the `/transactions` endpoint: the snapshot itself, in order, with
no failure path. -/
def get_all_transactions (transactions : List Transaction) : List Transaction :=
  transactions

/-- Whether some debit transaction of the list carries category `c`. -/
def hasDebitCat (ts : List Transaction) (c : String) : Bool :=
  ts.any fun t => decide (t.type = "debit") && decide (t.category = c)

/-- The summed amount of the debit transactions of category `c`. -/
def debitCatSum (ts : List Transaction) (c : String) : Rat :=
  ((ts.filter fun t => decide (t.type = "debit") && decide (t.category = c)).map
    (·.amount)).sum

/-! ## General lemmas about the fold-based minimum and maximum -/

theorem foldl_min_le_init (l : List Int) (a : Int) : l.foldl min a ≤ a := by
  induction l generalizing a with
  | nil => exact le_refl a
  | cons x xs ih => exact le_trans (ih (min a x)) (min_le_left a x)

theorem init_le_foldl_max (l : List Int) (a : Int) : a ≤ l.foldl max a := by
  induction l generalizing a with
  | nil => exact le_refl a
  | cons x xs ih => exact le_trans (le_max_left a x) (ih (max a x))

theorem foldl_min_le_mem (l : List Int) (a x : Int) (hx : x ∈ l) : l.foldl min a ≤ x := by
  induction l generalizing a with
  | nil => cases hx
  | cons y ys ih =>
      rcases List.mem_cons.mp hx with h | h
      · subst h
        exact le_trans (foldl_min_le_init ys (min a x)) (min_le_right a x)
      · exact ih (min a y) h

theorem mem_le_foldl_max (l : List Int) (a x : Int) (hx : x ∈ l) : x ≤ l.foldl max a := by
  induction l generalizing a with
  | nil => cases hx
  | cons y ys ih =>
      rcases List.mem_cons.mp hx with h | h
      · subst h
        exact le_trans (le_max_right a x) (init_le_foldl_max ys (max a x))
      · exact ih (max a y) h

theorem foldl_min_mem (l : List Int) (a : Int) : l.foldl min a = a ∨ l.foldl min a ∈ l := by
  induction l generalizing a with
  | nil => exact Or.inl rfl
  | cons y ys ih =>
      rcases ih (min a y) with h | h
      · rcases le_total a y with hay | hya
        · exact Or.inl (by rw [List.foldl_cons, h, min_eq_left hay])
        · exact Or.inr (by rw [List.foldl_cons, h, min_eq_right hya]; exact List.mem_cons_self y ys)
      · exact Or.inr (List.mem_cons_of_mem y h)

theorem foldl_max_mem (l : List Int) (a : Int) : l.foldl max a = a ∨ l.foldl max a ∈ l := by
  induction l generalizing a with
  | nil => exact Or.inl rfl
  | cons y ys ih =>
      rcases ih (max a y) with h | h
      · rcases le_total y a with hya | hay
        · exact Or.inl (by rw [List.foldl_cons, h, max_eq_left hya])
        · exact Or.inr (by rw [List.foldl_cons, h, max_eq_right hay]; exact List.mem_cons_self y ys)
      · exact Or.inr (List.mem_cons_of_mem y h)

/-! ## Basic facts about the analytics -/

theorem minDate_le_maxDate (t0 : Transaction) (rest : List Transaction) :
    minDate t0 rest ≤ maxDate t0 rest :=
  le_trans (foldl_min_le_init _ _) (init_le_foldl_max _ _)

theorem period_days_pos (ts : List Transaction) (h : ts ≠ []) :
    0 < (calculate_analytics ts).period_days := by
  cases ts with
  | nil => exact absurd rfl h
  | cons t0 rest =>
      have hle := minDate_le_maxDate t0 rest
      show 0 < maxDate t0 rest - minDate t0 rest + 1
      omega

theorem total_spend_nonneg (ts : List Transaction) (h : ∀ t ∈ ts, 0 ≤ t.amount) :
    0 ≤ (calculate_analytics ts).total_spend := by
  cases ts with
  | nil => exact le_refl 0
  | cons t0 rest =>
      show (0 : Rat) ≤
        (((t0 :: rest).filter fun t => decide (t.type = "debit")).map (·.amount)).sum
      apply List.sum_nonneg
      intro x hx
      obtain ⟨t, ht, rfl⟩ := List.mem_map.mp hx
      exact h t (List.mem_of_mem_filter ht)

/-! ## Claim theorems -/

/-- C10: over a non-empty snapshot `period_days` is at least 1, the division
`total_spend / period_days` is the guarded branch actually taken, and the
`else 0` fallback of `daily_spend_rate` is unreachable: the guarded expression
equals the plain quotient. -/
theorem C10_daily_spend_rate_guard (ts : List Transaction) (h : ts ≠ []) :
    1 ≤ (calculate_analytics ts).period_days ∧
    daily_spend_rate_of (calculate_analytics ts).total_spend
        (calculate_analytics ts).period_days
      = (calculate_analytics ts).total_spend
          / ((calculate_analytics ts).period_days : Rat) := by
  have hp := period_days_pos ts h
  exact ⟨hp, if_pos hp⟩

def exC10 : List Transaction := [⟨0, "chai", 1, "debit", "Food", "cash"⟩]

theorem C10_witness :
    exC10 ≠ [] ∧
    (1 ≤ (calculate_analytics exC10).period_days ∧
      daily_spend_rate_of (calculate_analytics exC10).total_spend
          (calculate_analytics exC10).period_days
        = (calculate_analytics exC10).total_spend
            / ((calculate_analytics exC10).period_days : Rat)) :=
  ⟨by decide, C10_daily_spend_rate_guard exC10 (by decide)⟩

/-- C7: a non-positive `monthly_income` is rejected with the invalid-input
condition for every snapshot, the empty snapshot included: the FastAPI
validation runs before the empty-snapshot check. -/
theorem C7_invalid_income (ts : List Transaction) (income : Rat) (h : income ≤ 0) :
    get_summary ts income = .error ApiError.invalidInput := by
  unfold get_summary
  rw [if_pos h]

theorem C7_witness :
    (0 : Rat) ≤ 0 ∧ get_summary [] 0 = .error ApiError.invalidInput :=
  ⟨le_refl 0, C7_invalid_income [] 0 (le_refl 0)⟩

/-- C8: on the empty snapshot, the summary with any strictly positive income
and the tips operation both fail with the no-data condition, while the
transaction listing succeeds with the empty sequence. -/
theorem C8_empty_snapshot (income : Rat) (h : 0 < income) :
    get_summary [] income = .error ApiError.noData ∧
    get_savings_tips ([] : List Transaction) = .error ApiError.noData ∧
    get_all_transactions ([] : List Transaction) = [] := by
  refine ⟨?_, rfl, rfl⟩
  unfold get_summary
  rw [if_neg (not_le.mpr h), if_pos rfl]

theorem C8_witness :
    (0 : Rat) < 1 ∧
    (get_summary [] 1 = .error ApiError.noData ∧
      get_savings_tips ([] : List Transaction) = .error ApiError.noData ∧
      get_all_transactions ([] : List Transaction) = []) :=
  ⟨by norm_num, C8_empty_snapshot 1 (by norm_num)⟩

/-- C4: `period_days` is the inclusive day span `max date - min date + 1`,
hence at least 1 on a non-empty list and exactly 1 when every transaction
shares one date; the empty list yields the degenerate quadruple
`0, 0, {}, 0`. -/
theorem C4_period_days (ts : List Transaction) :
    (ts = [] → calculate_analytics ts = ⟨0, 0, [], 0⟩) ∧
    (∀ t0 rest, ts = t0 :: rest →
      minDate t0 rest ∈ ts.map (·.date) ∧
      maxDate t0 rest ∈ ts.map (·.date) ∧
      (∀ d ∈ ts.map (·.date), minDate t0 rest ≤ d ∧ d ≤ maxDate t0 rest) ∧
      (calculate_analytics ts).period_days = maxDate t0 rest - minDate t0 rest + 1 ∧
      1 ≤ (calculate_analytics ts).period_days ∧
      ((∀ d ∈ ts.map (·.date), d = t0.date) →
        (calculate_analytics ts).period_days = 1)) := by
  constructor
  · rintro rfl
    rfl
  · rintro t0 rest rfl
    have hmaps : (t0 :: rest).map (·.date) = t0.date :: rest.map (·.date) := rfl
    have hmin_mem : minDate t0 rest ∈ (t0 :: rest).map (·.date) := by
      rw [hmaps]
      rcases foldl_min_mem (rest.map (·.date)) t0.date with h | h
      · rw [minDate, h]; exact List.mem_cons_self _ _
      · exact List.mem_cons_of_mem _ h
    have hmax_mem : maxDate t0 rest ∈ (t0 :: rest).map (·.date) := by
      rw [hmaps]
      rcases foldl_max_mem (rest.map (·.date)) t0.date with h | h
      · rw [maxDate, h]; exact List.mem_cons_self _ _
      · exact List.mem_cons_of_mem _ h
    have hbounds : ∀ d ∈ (t0 :: rest).map (·.date),
        minDate t0 rest ≤ d ∧ d ≤ maxDate t0 rest := by
      intro d hd
      rw [hmaps, List.mem_cons] at hd
      rcases hd with h | h
      · subst h
        exact ⟨foldl_min_le_init _ _, init_le_foldl_max _ _⟩
      · exact ⟨foldl_min_le_mem _ _ _ h, mem_le_foldl_max _ _ _ h⟩
    have hper : (calculate_analytics (t0 :: rest)).period_days
        = maxDate t0 rest - minDate t0 rest + 1 := rfl
    refine ⟨hmin_mem, hmax_mem, hbounds, hper, ?_, ?_⟩
    · rw [hper]
      have := minDate_le_maxDate t0 rest
      omega
    · intro hall
      have hmin : minDate t0 rest = t0.date := by
        rcases foldl_min_mem (rest.map (·.date)) t0.date with h | h
        · exact h
        · exact hall _ (by rw [hmaps]; exact List.mem_cons_of_mem _ h)
      have hmax : maxDate t0 rest = t0.date := by
        rcases foldl_max_mem (rest.map (·.date)) t0.date with h | h
        · exact h
        · exact hall _ (by rw [hmaps]; exact List.mem_cons_of_mem _ h)
      rw [hper, hmin, hmax]
      omega

def exC4 : List Transaction :=
  [⟨3, "a", 10, "debit", "Food", "cash"⟩, ⟨7, "b", 2, "debit", "Food", "cash"⟩]

theorem C4_witness :
    (calculate_analytics ([] : List Transaction) = ⟨0, 0, [], 0⟩) ∧
    (minDate ⟨3, "a", 10, "debit", "Food", "cash"⟩ [⟨7, "b", 2, "debit", "Food", "cash"⟩]
        ∈ exC4.map (·.date) ∧
      maxDate ⟨3, "a", 10, "debit", "Food", "cash"⟩ [⟨7, "b", 2, "debit", "Food", "cash"⟩]
        ∈ exC4.map (·.date) ∧
      (∀ d ∈ exC4.map (·.date),
        minDate ⟨3, "a", 10, "debit", "Food", "cash"⟩ [⟨7, "b", 2, "debit", "Food", "cash"⟩] ≤ d ∧
        d ≤ maxDate ⟨3, "a", 10, "debit", "Food", "cash"⟩ [⟨7, "b", 2, "debit", "Food", "cash"⟩]) ∧
      (calculate_analytics exC4).period_days
        = maxDate ⟨3, "a", 10, "debit", "Food", "cash"⟩ [⟨7, "b", 2, "debit", "Food", "cash"⟩]
          - minDate ⟨3, "a", 10, "debit", "Food", "cash"⟩ [⟨7, "b", 2, "debit", "Food", "cash"⟩] + 1 ∧
      1 ≤ (calculate_analytics exC4).period_days ∧
      ((∀ d ∈ exC4.map (·.date), d = (3 : Int)) →
        (calculate_analytics exC4).period_days = 1)) :=
  ⟨(C4_period_days []).1 rfl,
    (C4_period_days exC4).2 ⟨3, "a", 10, "debit", "Food", "cash"⟩
      [⟨7, "b", 2, "debit", "Food", "cash"⟩] rfl⟩

/-- Splitting the amount sum of the debit-or-credit transactions into the
debit total and the credit total. -/
theorem sum_debit_add_credit (ts : List Transaction) :
    ((ts.filter fun t => decide (t.type = "debit")).map (·.amount)).sum
      + ((ts.filter fun t => decide (t.type = "credit")).map (·.amount)).sum
    = ((ts.filter fun t => decide (t.type = "debit") || decide (t.type = "credit")).map
        (·.amount)).sum := by
  induction ts with
  | nil => simp
  | cons t ts ih =>
      by_cases hd : t.type = "debit"
      · have hc : ¬ t.type = "credit" := by rw [hd]; decide
        simp +decide [List.filter_cons, hd, hc, List.sum_cons]
        rw [← ih]
        ring
      · by_cases hc : t.type = "credit"
        · simp +decide [List.filter_cons, hd, hc, List.sum_cons]
          rw [← ih]
          ring
        · simp +decide [List.filter_cons, hd, hc]
          exact ih

/-- C2 (amended): the debit and credit totals are the amount sums of the
debit and credit transactions respectively, their sum is the amount sum over
the transactions whose type is debit or credit, and when every type is one of
the two recognized values it is the amount sum of the whole list. A
transaction of any other type is counted in neither total. -/
theorem C2_totals_partition (ts : List Transaction) (hne : ts ≠ []) :
    (calculate_analytics ts).total_spend
        = ((ts.filter fun t => decide (t.type = "debit")).map (·.amount)).sum ∧
    (calculate_analytics ts).total_income
        = ((ts.filter fun t => decide (t.type = "credit")).map (·.amount)).sum ∧
    (calculate_analytics ts).total_spend + (calculate_analytics ts).total_income
        = ((ts.filter fun t =>
              decide (t.type = "debit") || decide (t.type = "credit")).map (·.amount)).sum ∧
    ((∀ t ∈ ts, t.type = "debit" ∨ t.type = "credit") →
      (calculate_analytics ts).total_spend + (calculate_analytics ts).total_income
        = (ts.map (·.amount)).sum) := by
  cases ts with
  | nil => exact absurd rfl hne
  | cons t0 rest =>
      refine ⟨rfl, rfl, sum_debit_add_credit (t0 :: rest), ?_⟩
      intro hall
      rw [show (calculate_analytics (t0 :: rest)).total_spend
            = (((t0 :: rest).filter fun t => decide (t.type = "debit")).map (·.amount)).sum
          from rfl,
        show (calculate_analytics (t0 :: rest)).total_income
            = (((t0 :: rest).filter fun t => decide (t.type = "credit")).map (·.amount)).sum
          from rfl,
        sum_debit_add_credit (t0 :: rest)]
      congr 1
      congr 1
      rw [List.filter_eq_self]
      intro t ht
      rcases hall t ht with h | h
      · simp [h]
      · simp [h]

def exC2good : List Transaction :=
  [⟨0, "a", 100, "debit", "Food", "cash"⟩, ⟨1, "b", 40, "credit", "Gift", "upi"⟩]

theorem C2_witness :
    exC2good ≠ [] ∧
    ((calculate_analytics exC2good).total_spend
        = ((exC2good.filter fun t => decide (t.type = "debit")).map (·.amount)).sum ∧
      (calculate_analytics exC2good).total_income
        = ((exC2good.filter fun t => decide (t.type = "credit")).map (·.amount)).sum ∧
      (calculate_analytics exC2good).total_spend + (calculate_analytics exC2good).total_income
        = ((exC2good.filter fun t =>
              decide (t.type = "debit") || decide (t.type = "credit")).map (·.amount)).sum ∧
      ((∀ t ∈ exC2good, t.type = "debit" ∨ t.type = "credit") →
        (calculate_analytics exC2good).total_spend
            + (calculate_analytics exC2good).total_income
          = (exC2good.map (·.amount)).sum)) :=
  ⟨by decide, C2_totals_partition exC2good (by decide)⟩

/-- C2 (counterexample): a single transaction of the unrecognized type
"transfer" with amount 5 is counted in neither total, so
`total_spend + total_income = 0` differs from the amount sum 5; the claimed
equality over all transactions fails. -/
theorem C2_counterexample :
    ¬ ((calculate_analytics [⟨0, "t", 5, "transfer", "Misc", "cash"⟩]).total_spend
          + (calculate_analytics [⟨0, "t", 5, "transfer", "Misc", "cash"⟩]).total_income
        = (([⟨0, "t", 5, "transfer", "Misc", "cash"⟩] : List Transaction).map
            (·.amount)).sum) := by
  norm_num +decide [calculate_analytics, List.filter]



theorem categoryLookup_addToCategory (m : List (String × Rat)) (c : String) (a : Rat)
    (c' : String) :
    categoryLookup (addToCategory m c a) c'
      = if c' = c then some ((categoryLookup m c).getD 0 + a)
        else categoryLookup m c' := by
  induction m with
  | nil =>
      by_cases h : c' = c
      · subst h; simp [addToCategory, categoryLookup]
      · simp [addToCategory, categoryLookup, h, Ne.symm h]
  | cons kv rest ih =>
      obtain ⟨k, v⟩ := kv
      by_cases hk : k = c
      · subst hk
        by_cases h : c' = k
        · subst h; simp [addToCategory, categoryLookup]
        · simp [addToCategory, categoryLookup, h, Ne.symm h]
      · by_cases h : c' = c
        · subst h
          simp [addToCategory, categoryLookup, hk, Ne.symm hk, ih]
        · by_cases hkc : k = c'
          · subst hkc
            simp [addToCategory, categoryLookup, hk, h]
          · simp [addToCategory, categoryLookup, hk, hkc, h, ih]

theorem categoryLookup_spendFold (ts : List Transaction) :
    ∀ (m : List (String × Rat)) (c : String),
      categoryLookup
          (ts.foldl
            (fun m t => if t.type = "debit" then addToCategory m t.category t.amount else m)
            m) c
        = if (categoryLookup m c).isSome || hasDebitCat ts c
          then some ((categoryLookup m c).getD 0 + debitCatSum ts c)
          else none := by
  induction ts with
  | nil =>
      intro m c
      simp only [List.foldl_nil, hasDebitCat, debitCatSum, List.any_nil, List.filter_nil,
        List.map_nil, List.sum_nil, Bool.or_false, add_zero]
      cases h : categoryLookup m c <;> simp [h]
  | cons t ts ih =>
      intro m c
      simp only [List.foldl_cons]
      by_cases ht : t.type = "debit"
      · rw [if_pos ht]
        rw [ih]
        by_cases hc : t.category = c
        · have h1 : categoryLookup (addToCategory m t.category t.amount) c
              = some ((categoryLookup m c).getD 0 + t.amount) := by
            rw [categoryLookup_addToCategory, if_pos hc.symm, hc]
          have h2 : hasDebitCat (t :: ts) c = true := by
            simp [hasDebitCat, ht, hc]
          have h3 : debitCatSum (t :: ts) c = t.amount + debitCatSum ts c := by
            simp +decide [debitCatSum, List.filter_cons, ht, hc]
          rw [h1, h2, h3]
          simp [add_assoc]
        · have h1 : categoryLookup (addToCategory m t.category t.amount) c
              = categoryLookup m c := by
            rw [categoryLookup_addToCategory, if_neg (fun hh => hc hh.symm)]
          have h2 : hasDebitCat (t :: ts) c = hasDebitCat ts c := by
            simp [hasDebitCat, hc]
          have h3 : debitCatSum (t :: ts) c = debitCatSum ts c := by
            simp +decide [debitCatSum, List.filter_cons, hc]
          rw [h1, h2, h3]
      · rw [if_neg ht]
        rw [ih]
        have h2 : hasDebitCat (t :: ts) c = hasDebitCat ts c := by
          simp [hasDebitCat, ht]
        have h3 : debitCatSum (t :: ts) c = debitCatSum ts c := by
          simp +decide [debitCatSum, List.filter_cons, ht]
        rw [h2, h3]

end Mochi

namespace Mochi

theorem valuesSum_addToCategory (m : List (String × Rat)) (c : String) (a : Rat) :
    ((addToCategory m c a).map (·.2)).sum = (m.map (·.2)).sum + a := by
  induction m with
  | nil => simp [addToCategory]
  | cons kv rest ih =>
      obtain ⟨k, v⟩ := kv
      by_cases hk : k = c
      · simp only [addToCategory, hk, if_pos, List.map_cons, List.sum_cons, ite_true]
        ring
      · simp only [addToCategory, hk, List.map_cons, List.sum_cons, ite_false, if_neg, ih]
        ring

theorem valuesSum_spendFold (ts : List Transaction) :
    ∀ m : List (String × Rat),
      ((ts.foldl
          (fun m t => if t.type = "debit" then addToCategory m t.category t.amount else m)
          m).map (·.2)).sum
        = (m.map (·.2)).sum
            + ((ts.filter fun t => decide (t.type = "debit")).map (·.amount)).sum := by
  induction ts with
  | nil => intro m; simp
  | cons t ts ih =>
      intro m
      simp only [List.foldl_cons]
      by_cases ht : t.type = "debit"
      · rw [if_pos ht, ih, valuesSum_addToCategory]
        simp +decide [List.filter_cons, ht]
        ring
      · rw [if_neg ht, ih]
        simp +decide [List.filter_cons, ht]

/-- C3 (amended): `spend_by_category` maps a category to the summed debit
amount of that category, and a category is present exactly when some debit
transaction carries it — a category whose debit transactions total 0 is
present with value 0, not absent; the mapping values always sum to
`total_spend`. -/
theorem C3_spend_by_category (ts : List Transaction) :
    (∀ c, categoryLookup (calculate_analytics ts).spend_by_category c
        = if hasDebitCat ts c then some (debitCatSum ts c) else none) ∧
    ((calculate_analytics ts).spend_by_category.map (·.2)).sum
        = (calculate_analytics ts).total_spend := by
  have hsbc : (calculate_analytics ts).spend_by_category = spendByCategory ts := by
    cases ts <;> rfl
  constructor
  · intro c
    rw [hsbc, spendByCategory, categoryLookup_spendFold]
    simp [categoryLookup]
  · rw [hsbc, spendByCategory, valuesSum_spendFold]
    simp only [List.map_nil, List.sum_nil, zero_add]
    cases ts with
    | nil => rfl
    | cons t0 rest => rfl

/-- C3 (counterexample): one debit transaction of category "Chai" with amount
0: the total debit spend of "Chai" is 0, yet "Chai" is present in the mapping
with value 0 rather than absent. -/
theorem C3_counterexample :
    debitCatSum [⟨0, "z", 0, "debit", "Chai", "cash"⟩] "Chai" = 0 ∧
    categoryLookup
        (calculate_analytics [⟨0, "z", 0, "debit", "Chai", "cash"⟩]).spend_by_category
        "Chai"
      = some 0 := by
  constructor
  · norm_num +decide [debitCatSum, List.filter]
  · rfl

theorem get_savings_tips_ok (ts : List Transaction) (h : ts ≠ []) :
    get_savings_tips ts = .ok ((generated_tips ts).take 3) := by
  unfold get_savings_tips
  rw [if_neg h]

theorem topCategoryTips_length_le (sbc : List (String × Rat)) :
    (topCategoryTips sbc).length ≤ 1 := by
  unfold topCategoryTips
  split
  · simp
  · split_ifs <;> simp

theorem subscriptions_not_mem_topCategoryTips (sbc : List (String × Rat)) :
    Tip.subscriptions ∉ topCategoryTips sbc := by
  unfold topCategoryTips
  split
  · simp
  · split_ifs <;> simp

theorem subscriptions_not_mem_suttaTips (sbc : List (String × Rat)) (n : Nat) :
    Tip.subscriptions ∉ suttaTips sbc n := by
  unfold suttaTips
  split <;> simp

theorem subscriptions_not_mem_coffeeTips (sbc : List (String × Rat)) :
    Tip.subscriptions ∉ coffeeTips sbc := by
  unfold coffeeTips
  split
  · split_ifs <;> simp
  · simp

theorem subscriptions_not_mem_category_specific (ts : List Transaction) :
    Tip.subscriptions ∉ category_specific_tips ts := by
  intro h
  simp only [category_specific_tips, List.mem_append] at h
  rcases h with (h | h) | h
  · exact subscriptions_not_mem_topCategoryTips _ h
  · exact subscriptions_not_mem_suttaTips _ _ h
  · exact subscriptions_not_mem_coffeeTips _ h

theorem mem_take3_iff_short (cs : List Tip) (hnot : Tip.subscriptions ∉ cs) :
    Tip.subscriptions ∈ (cs ++ [Tip.subscriptions]).take 3 ↔ cs.length < 3 := by
  constructor
  · intro h
    by_contra hlen
    push_neg at hlen
    rw [List.take_append_of_le_length hlen] at h
    exact hnot (List.take_subset _ _ h)
  · intro h
    have hle : (cs ++ [Tip.subscriptions]).length ≤ 3 := by
      rw [List.length_append]
      simp only [List.length_singleton]
      omega
    rw [List.take_of_length_le hle]
    exact List.mem_append_right _ (List.mem_singleton_self _)

theorem mem_take3_of_left_short (l1 l2 : List Tip) (x : Tip) (h : l1.length ≤ 1) :
    x ∈ (l1 ++ x :: l2).take 3 := by
  cases l1 with
  | nil => simp [List.take_succ_cons]
  | cons a l1x =>
      cases l1x with
      | nil => simp [List.take_succ_cons]
      | cons b l1y => simp at h

/-- C5: for every non-empty snapshot the tips operation returns the generated
tip sequence truncated to its first 3 entries, hence at most 3 tips; the
step-1 top-category tip, when present, is first, and the generic
subscriptions tip — appended after all category-specific tips — appears in
the result exactly when fewer than 3 category-specific tips precede it. -/
theorem C5_truncation (ts : List Transaction) (h : ts ≠ []) :
    ∃ tips, get_savings_tips ts = .ok tips ∧
      tips = (category_specific_tips ts ++ [Tip.subscriptions]).take 3 ∧
      tips.length ≤ 3 ∧
      (∀ tp l, topCategoryTips (calculate_analytics ts).spend_by_category = tp :: l →
        tips.head? = some tp) ∧
      (Tip.subscriptions ∈ tips ↔ (category_specific_tips ts).length < 3) := by
  refine ⟨(generated_tips ts).take 3, get_savings_tips_ok ts h, rfl, ?_, ?_, ?_⟩
  · rw [List.length_take]
    exact min_le_left _ _
  · intro tp l htop
    have hgen : generated_tips ts
        = tp :: (l ++ suttaTips (calculate_analytics ts).spend_by_category ts.length
            ++ coffeeTips (calculate_analytics ts).spend_by_category
            ++ [Tip.subscriptions]) := by
      simp [generated_tips, category_specific_tips, htop, List.append_assoc]
    rw [hgen]
    rfl
  · show Tip.subscriptions ∈ (category_specific_tips ts ++ [Tip.subscriptions]).take 3 ↔ _
    exact mem_take3_iff_short _ (subscriptions_not_mem_category_specific ts)

def exC5 : List Transaction :=
  [⟨0, "a", 100, "debit", "Food Delivery", "upi"⟩,
   ⟨4, "b", 5000, "credit", "Salary", "bank"⟩]

theorem C5_witness :
    ∃ tips, get_savings_tips exC5 = .ok tips ∧
      tips = (category_specific_tips exC5 ++ [Tip.subscriptions]).take 3 ∧
      tips.length ≤ 3 ∧
      (∀ tp l, topCategoryTips (calculate_analytics exC5).spend_by_category = tp :: l →
        tips.head? = some tp) ∧
      (Tip.subscriptions ∈ tips ↔ (category_specific_tips exC5).length < 3) :=
  C5_truncation exC5 (by decide)

/-- C9: for every non-empty snapshot the tips list is never empty — the
generic subscriptions tip is appended unconditionally before truncation, so
the returned list has between 1 and 3 entries. -/
theorem C9_tips_count (ts : List Transaction) (h : ts ≠ []) :
    ∃ tips, get_savings_tips ts = .ok tips ∧
      1 ≤ tips.length ∧ tips.length ≤ 3 ∧
      (generated_tips ts).getLast? = some Tip.subscriptions := by
  refine ⟨(generated_tips ts).take 3, get_savings_tips_ok ts h, ?_, ?_, ?_⟩
  · rw [List.length_take]
    have h1 : 1 ≤ (generated_tips ts).length := by
      rw [generated_tips, List.length_append]
      simp only [List.length_singleton]
      omega
    omega
  · rw [List.length_take]
    exact min_le_left _ _
  · rw [generated_tips]
    exact List.getLast?_concat _

def exC9 : List Transaction := [⟨2, "one", 50, "debit", "Games", "card"⟩]

theorem C9_witness :
    ∃ tips, get_savings_tips exC9 = .ok tips ∧
      1 ≤ tips.length ∧ tips.length ≤ 3 ∧
      (generated_tips exC9).getLast? = some Tip.subscriptions :=
  C9_tips_count exC9 (by decide)

/-- C6: whenever the category "Sutta" is present in `spend_by_category` with
total `s`, the returned tips include the Sutta tip whose suggested monthly
saving equals `s / transactionCount * 0.75 * 30`; it survives truncation
because at most one tip (step 1) precedes it. -/
theorem C6_sutta_tip (ts : List Transaction) (s : Rat) (hne : ts ≠ [])
    (hs : categoryLookup (calculate_analytics ts).spend_by_category "Sutta" = some s) :
    ∃ tips, get_savings_tips ts = .ok tips ∧
      Tip.sutta (s / (ts.length : Rat) * 0.75 * 30) ∈ tips := by
  refine ⟨(generated_tips ts).take 3, get_savings_tips_ok ts hne, ?_⟩
  have hsu : suttaTips (calculate_analytics ts).spend_by_category ts.length
      = [Tip.sutta (s / (ts.length : Rat) * 0.75 * 30)] := by
    unfold suttaTips
    rw [hs]
  have hgen : generated_tips ts
      = topCategoryTips (calculate_analytics ts).spend_by_category
        ++ (Tip.sutta (s / (ts.length : Rat) * 0.75 * 30)
            :: (coffeeTips (calculate_analytics ts).spend_by_category
                ++ [Tip.subscriptions])) := by
    simp [generated_tips, category_specific_tips, hsu, List.append_assoc]
  rw [hgen]
  exact mem_take3_of_left_short _ _ _ (topCategoryTips_length_le _)

def exC6 : List Transaction :=
  [⟨0, "pack", 300, "debit", "Sutta", "cash"⟩,
   ⟨0, "c1", 10, "credit", "Salary", "bank"⟩,
   ⟨0, "c2", 10, "credit", "Salary", "bank"⟩,
   ⟨0, "c3", 10, "credit", "Salary", "bank"⟩,
   ⟨0, "c4", 10, "credit", "Salary", "bank"⟩,
   ⟨0, "c5", 10, "credit", "Salary", "bank"⟩,
   ⟨0, "c6", 10, "credit", "Salary", "bank"⟩,
   ⟨0, "c7", 10, "credit", "Salary", "bank"⟩,
   ⟨0, "c8", 10, "credit", "Salary", "bank"⟩,
   ⟨0, "c9", 10, "credit", "Salary", "bank"⟩]

theorem C6_witness :
    ∃ tips, get_savings_tips exC6 = .ok tips ∧ Tip.sutta 675 ∈ tips := by
  obtain ⟨tips, hok, hmem⟩ := C6_sutta_tip exC6 300 (by decide) (by decide)
  refine ⟨tips, hok, ?_⟩
  have hval : (300 : Rat) / (exC6.length : Rat) * 0.75 * 30 = 675 := by
    norm_num [exC6]
  rw [← hval]
  exact hmem

/-- C1: over a non-empty snapshot with positive income (amounts non-negative,
as the data model assumes), `days_until_broke_projection` is `none` when the
daily spend rate `total_spend / period_days` is zero, `0` when
`money_left_from_income = monthly_income - total_spend` is non-positive, and
`floor(money_left / daily_spend_rate)` otherwise; in particular it is 0 and
never negative or absent whenever income does not exceed spend with a nonzero
rate. -/
theorem C1_days_until_broke (ts : List Transaction) (income : Rat)
    (hne : ts ≠ []) (hinc : 0 < income) (hamt : ∀ t ∈ ts, 0 ≤ t.amount) :
    ∃ r, get_summary ts income = .ok r ∧
      r.days_until_broke_projection
        = (if (calculate_analytics ts).total_spend
              / ((calculate_analytics ts).period_days : Rat) = 0 then none
           else if income - (calculate_analytics ts).total_spend ≤ 0 then some 0
           else some ⌊(income - (calculate_analytics ts).total_spend)
              / ((calculate_analytics ts).total_spend
                  / ((calculate_analytics ts).period_days : Rat))⌋) ∧
      (income ≤ (calculate_analytics ts).total_spend →
        (calculate_analytics ts).total_spend
            / ((calculate_analytics ts).period_days : Rat) ≠ 0 →
        r.days_until_broke_projection = some 0) ∧
      (∀ d, r.days_until_broke_projection = some d → 0 ≤ d) := by
  have hp : 0 < (calculate_analytics ts).period_days := period_days_pos ts hne
  have hspend : 0 ≤ (calculate_analytics ts).total_spend := total_spend_nonneg ts hamt
  have hpq : (0 : Rat) < ((calculate_analytics ts).period_days : Rat) := by
    exact_mod_cast hp
  have hrate : daily_spend_rate_of (calculate_analytics ts).total_spend
      (calculate_analytics ts).period_days
      = (calculate_analytics ts).total_spend
          / ((calculate_analytics ts).period_days : Rat) := if_pos hp
  have hrate_nonneg : 0 ≤ (calculate_analytics ts).total_spend
      / ((calculate_analytics ts).period_days : Rat) :=
    div_nonneg hspend (le_of_lt hpq)
  unfold get_summary
  rw [if_neg (not_le.mpr hinc), if_neg hne]
  refine ⟨_, rfl, ?_, ?_, ?_⟩
  all_goals
    simp only [hrate]
  · by_cases hz : (calculate_analytics ts).total_spend
        / ((calculate_analytics ts).period_days : Rat) = 0
    · rw [if_pos hz, if_neg (by rw [hz]; exact lt_irrefl 0)]
    · have hpos : 0 < (calculate_analytics ts).total_spend
          / ((calculate_analytics ts).period_days : Rat) :=
        lt_of_le_of_ne hrate_nonneg (Ne.symm hz)
      rw [if_neg hz, if_pos hpos]
      by_cases hml : income - (calculate_analytics ts).total_spend ≤ 0
      · rw [if_pos hml, if_neg (not_lt.mpr hml)]
      · have hmlpos : 0 < income - (calculate_analytics ts).total_spend :=
          lt_of_not_le hml
        rw [if_neg hml, if_pos hmlpos, ratTrunc,
          if_pos (div_nonneg (le_of_lt hmlpos) (le_of_lt hpos))]
  · intro hle hz
    have hpos : 0 < (calculate_analytics ts).total_spend
        / ((calculate_analytics ts).period_days : Rat) :=
      lt_of_le_of_ne hrate_nonneg (Ne.symm hz)
    rw [if_pos hpos, if_neg (not_lt.mpr (sub_nonpos.mpr hle))]
  · intro d hd
    by_cases hpos : 0 < (calculate_analytics ts).total_spend
        / ((calculate_analytics ts).period_days : Rat)
    · rw [if_pos hpos] at hd
      by_cases hml : 0 < income - (calculate_analytics ts).total_spend
      · rw [if_pos hml] at hd
        have : (0 : Int) ≤ ratTrunc ((income - (calculate_analytics ts).total_spend)
            / ((calculate_analytics ts).total_spend
                / ((calculate_analytics ts).period_days : Rat))) := by
          rw [ratTrunc, if_pos (div_nonneg (le_of_lt hml) (le_of_lt hpos))]
          exact Int.floor_nonneg.mpr (div_nonneg (le_of_lt hml) (le_of_lt hpos))
        exact Option.some.inj hd ▸ this
      · rw [if_neg hml] at hd
        exact Option.some.inj hd ▸ le_refl (0 : Int)
    · rw [if_neg hpos] at hd
      cases hd

def exC1 : List Transaction :=
  [⟨0, "food", 100, "debit", "Food Delivery", "upi"⟩,
   ⟨4, "pay", 5000, "credit", "Salary", "bank"⟩]

theorem C1_witness :
    ∃ r, get_summary exC1 6000 = .ok r ∧ r.days_until_broke_projection = some 295 := by
  obtain ⟨r, hok, heq, -, -⟩ := C1_days_until_broke exC1 6000 (by decide) (by norm_num)
    (by intro t ht; fin_cases ht <;> norm_num)
  have hA : calculate_analytics exC1 = ⟨100, 5000, [("Food Delivery", 100)], 5⟩ := by
    norm_num +decide [calculate_analytics, exC1, List.filter, spendByCategory, addToCategory,
      minDate, maxDate]
  rw [hA] at heq
  refine ⟨r, hok, ?_⟩
  rw [heq]
  norm_num

end Mochi
